import Mathlib

/-!
Shallow embedding of the velomail browser extension's pure core, translated
from the JavaScript sources:

* the Heuristic Scorer `calculateSimpleMobileScore` and `getGradeFromScore`
  (content script, around the score computation),
* the `throttle` combinator used for `throttledServiceWorkerUpdate`,
* the `LRUCache` class and the `operationCache` instances,
* the hash bookkeeping of `updatePreview` (light vs heavy pass) and `fastHash`,
* the Usage Gate of the background worker: `checkUsageLimit`,
  `trackPreviewUsage`, the `EMAIL_SENT` handler, and the content-script side
  `checkLimit`.

Strings are modelled as `List Char`; JS `string.length` (UTF-16 code units)
is modelled as the character count, which agrees on the basic plane.
JS regular-expression tests are modelled by explicit scanning functions that
follow the word-boundary and greedy-match semantics of the concrete patterns
used by the source.  The floating-point products fed to `Math.round`
(e.g. `15 * 0.7`) are constant; each embedded branch hard-codes the exact
value JS computes for it (e.g. `Math.round(15 * 0.7) = 11` because the double
product is `10.5`, and `Math.round(12 * 0.6) = 7` because the double product
is `7.199…`).
-/

abbrev Str := List Char

/-- Whitespace class of the JS regexes and of `trim` (ASCII part). -/
def isSpaceJS (c : Char) : Bool :=
  c = ' ' || c = '\t' || c = '\n' || c = '\r' || c = '\x0b' || c = '\x0c'

/-- Word character of the JS `\b` boundary: `[A-Za-z0-9_]`. -/
def isWordChar (c : Char) : Bool :=
  c.isAlpha || c.isDigit || c = '_'

/-- `textContent.split('\n')`, as in the paragraph computation. -/
def splitLines : Str → List Str
  | [] => [[]]
  | c :: rest =>
    let r := splitLines rest
    if c = '\n' then [] :: r
    else
      match r with
      | [] => [[c]]
      | l :: ls => (c :: l) :: ls

/-- Counts the maximal non-whitespace runs: the length of
    `textContent.trim().split(/\s+/).filter(w => w.length > 0)`. -/
def wordCountAux : Bool → Str → Nat
  | _, [] => 0
  | inWord, c :: rest =>
    if isSpaceJS c then wordCountAux false rest
    else (if inWord then 0 else 1) + wordCountAux true rest

def wordCount (s : Str) : Nat := wordCountAux false s

/-- Lengths of the non-blank lines: the `p.length` values of
    `textContent.split('\n').filter(p => p.trim().length > 0)`. -/
def paragraphLens (s : Str) : List Nat :=
  ((splitLines s).filter (fun p => p.any (fun c => !isSpaceJS c))).map List.length

/-- The alternatives of the CTA keyword regex
    `\b(click|tap|view|reply|respond|call|visit|download|register|sign up|join|buy|get|try|learn more|read more|schedule|book|demo)\b`. -/
def ctaKeywords : List Str :=
  ["click".toList, "tap".toList, "view".toList, "reply".toList, "respond".toList,
   "call".toList, "visit".toList, "download".toList, "register".toList, "sign up".toList,
   "join".toList, "buy".toList, "get".toList, "try".toList, "learn more".toList,
   "read more".toList, "schedule".toList, "book".toList, "demo".toList]

/-- One case-insensitive keyword match at position `i`, including the two
    `\b` boundaries (every keyword starts and ends with a word character, so
    the boundary holds exactly when the neighbour is absent or non-word). -/
def keywordAt (s : Str) (i : Nat) (k : Str) : Bool :=
  decide (((s.drop i).take k.length).map Char.toLower = k)
  && (if i = 0 then true else !isWordChar ((s.drop (i - 1)).headD ' '))
  && (match (s.drop (i + k.length)).head? with
      | none => true
      | some c => !isWordChar c)

/-- `ctaKeywords.test(s)`: some keyword matches somewhere. -/
def hasCTA (s : Str) : Bool :=
  (List.range (s.length + 1)).any (fun i => ctaKeywords.any (fun k => keywordAt s i k))

/-- Length matched by the alternation `https?:\/\/|www\.` at the head of `s`,
    case-insensitively. -/
def linkPrefixLen (s : Str) : Option Nat :=
  if decide ((s.take 8).map Char.toLower = "https://".toList) then some 8
  else if decide ((s.take 7).map Char.toLower = "http://".toList) then some 7
  else if decide ((s.take 4).map Char.toLower = "www.".toList) then some 4
  else none

/-- Length of a full match of `\b(https?:\/\/|www\.)\S+` starting at the head
    of `s`, with `prevIsWord` the word-ness of the preceding character (the
    `\b` fails when it is a word character, since both alternatives start with
    one).  The trailing `\S+` is greedy and needs at least one character. -/
def linkMatchLen (prevIsWord : Bool) (s : Str) : Option Nat :=
  if prevIsWord then none
  else
    match linkPrefixLen s with
    | none => none
    | some p =>
      let run := ((s.drop p).takeWhile (fun c => !isSpaceJS c)).length
      if run = 0 then none else some (p + run)

/-- Global scan of `textContent.match(/\b(https?:\/\/|www\.)\S+/gi)`,
    counting matches left to right and resuming after each match.  The fuel
    starts at the string length; each step consumes at least one character. -/
def countLinksAux : Nat → Bool → Str → Nat
  | 0, _, _ => 0
  | _, _, [] => 0
  | fuel + 1, pw, c :: rest =>
    match linkMatchLen pw (c :: rest) with
    | some n =>
        1 + countLinksAux fuel (isWordChar (((c :: rest).drop (n - 1)).headD ' '))
              ((c :: rest).drop n)
    | none => countLinksAux fuel (isWordChar c) rest

def countLinks (s : Str) : Nat := countLinksAux s.length false s

/-- One entry of the `breakdown` object. -/
structure FactorResult where
  score : Nat
  maxScore : Nat
  feedback : String
deriving DecidableEq

/-- One entry of the `suggestions` array.  `factor` records which breakdown
    key the push site belongs to, `points` the `pointsToGain` number printed
    in the message, `text` the full message. -/
structure Suggestion where
  factor : String
  points : Nat
  text : String
deriving DecidableEq

structure Breakdown where
  subjectLength : FactorResult
  ctaAboveFold : FactorResult
  linkDensity : FactorResult
  imageOptimization : FactorResult
  textLength : FactorResult
  whitespaceRatio : FactorResult
  readability : FactorResult
deriving DecidableEq

structure MobileScore where
  score : Nat
  breakdown : Breakdown
  suggestions : List Suggestion
  grade : String
deriving DecidableEq

/-- Subject-line factor (20 points) of `calculateSimpleMobileScore`. -/
def subjectFactor (subject : Str) : FactorResult × List Suggestion :=
  let subjectLength := subject.length
  if subject = [] then
    (⟨0, 20, "Add a subject line"⟩,
     [⟨"subjectLength", 20, "⚠️ Add a subject line (+20 points)"⟩])
  else if subjectLength ≤ 40 then
    (⟨20, 20, "Perfect length for mobile (" ++ toString subjectLength ++ " chars)"⟩, [])
  else if subjectLength ≤ 50 then
    (⟨12, 20, "Good, but consider shortening (" ++ toString subjectLength ++ " chars)"⟩,
     [⟨"subjectLength", 8, "📏 Subject under 60 characters (recommended) (+8 points)"⟩])
  else if subjectLength ≤ 60 then
    (⟨6, 20, "May truncate on some devices (" ++ toString subjectLength ++ " chars)"⟩,
     [⟨"subjectLength", 14, "⚠️ Shorten subject to under 60 chars — truncated subjects lose opens (+14 points)"⟩])
  else
    (⟨2, 20, "Too long—will definitely truncate (" ++ toString subjectLength ++ " chars)"⟩,
     [⟨"subjectLength", 18, "❌ Subject too long (" ++ toString subjectLength ++ " chars) — mobile shows ~30 chars before cutting off (+18 points)"⟩])

/-- CTA-above-fold factor (25 points): keywords in the first 250 characters,
    else anywhere.  The shared `lastIndex` of the `gi` regex is irrelevant to
    the output: the second `test` only matters when the first found nothing,
    and a failed `test` resets `lastIndex` to 0. -/
def ctaFactor (textContent : Str) : FactorResult × List Suggestion :=
  let hasCTAAboveFold := hasCTA (textContent.take 250)
  let hasCTAAnyWhere := hasCTA textContent
  if hasCTAAboveFold then
    (⟨25, 25, "CTA visible without scrolling ✓"⟩, [])
  else if hasCTAAnyWhere then
    (⟨10, 25, "CTA exists but below fold"⟩,
     [⟨"ctaAboveFold", 15, "🎯 Move CTA above the fold — prospects decide in 3 seconds (+15 points)"⟩])
  else
    (⟨0, 25, "No clear call-to-action found"⟩,
     [⟨"ctaAboveFold", 25, "❌ Add a CTA — emails without one get ignored on mobile (+25 points)"⟩])

/-- Link-density factor (15 points).  `charsPerLink >= 100` and
    `charsPerLink >= 50` are the exact rational comparisons
    `length ≥ 100·count` and `length ≥ 50·count`; the zero-link branch scores
    `Math.round(15 * 0.5) = 8` and pushes no suggestion. -/
def linkFactor (textContent : Str) : FactorResult × List Suggestion :=
  let linkCount := countLinks textContent
  if linkCount = 0 then
    (⟨8, 15, "No links detected"⟩, [])
  else if 100 * linkCount ≤ textContent.length then
    (⟨15, 15, "Good link spacing (" ++ toString linkCount ++ " links)"⟩, [])
  else if 50 * linkCount ≤ textContent.length then
    (⟨11, 15, "Links are a bit dense (" ++ toString linkCount ++ " links)"⟩,
     [⟨"linkDensity", 5, "🔗 Fewer links = higher tap-through rate on mobile (+5 points)"⟩])
  else
    (⟨5, 15, "Too many links (" ++ toString linkCount ++ " links)"⟩,
     [⟨"linkDensity", 11, "⚠️ Too many links overwhelm mobile readers — pick one strong CTA (+11 points)"⟩])

/-- Email-length factor (12 points), banded on the word count. -/
def lengthFactor (textContent : Str) : FactorResult × List Suggestion :=
  let w := wordCount textContent
  if 50 ≤ w ∧ w ≤ 500 then
    (⟨12, 12, "Perfect length (" ++ toString w ++ " words)"⟩, [])
  else if 30 ≤ w ∧ w < 50 then
    (⟨7, 12, "A bit short (" ++ toString w ++ " words)"⟩,
     [⟨"textLength", 5, "📝 Add more content (aim for 50-500 words) (+5 points)"⟩])
  else if 500 < w ∧ w ≤ 800 then
    (⟨7, 12, "A bit long (" ++ toString w ++ " words)"⟩,
     [⟨"textLength", 5, "✂️ Shorten email to 50-500 words for mobile (+5 points)"⟩])
  else if 800 < w then
    (⟨4, 12, "Too long (" ++ toString w ++ " words)"⟩,
     [⟨"textLength", 8, "❌ Email is " ++ toString w ++ " words! Shorten to under 500 (+8 points)"⟩])
  else
    (⟨0, 12, "Too short (" ++ toString w ++ " words)"⟩,
     [⟨"textLength", 12, "⚠️ Add more content (at least 30 words) (+12 points)"⟩])

/-- Whitespace factor (10 points), banded on the paragraph count. -/
def whitespaceFactor (textContent : Str) : FactorResult × List Suggestion :=
  let paraCount := (paragraphLens textContent).length
  if 3 ≤ paraCount then
    (⟨10, 10, "Good spacing (" ++ toString paraCount ++ " paragraphs)"⟩, [])
  else if paraCount = 2 then
    (⟨6, 10, "Add more paragraph breaks"⟩,
     [⟨"whitespaceRatio", 4, "⬜ Break content into more paragraphs (+4 points)"⟩])
  else
    (⟨3, 10, "No paragraph breaks"⟩,
     [⟨"whitespaceRatio", 7, "⚠️ Add paragraph breaks for readability (+7 points)"⟩])

/-- Readability factor (6 points): average paragraph length
    `sum / (paraCount || 1)` compared with 300 and 500, as exact rational
    comparisons. -/
def readabilityFactor (textContent : Str) : FactorResult × List Suggestion :=
  let lens := paragraphLens textContent
  let d := if lens.length = 0 then 1 else lens.length
  if lens.sum ≤ 300 * d then
    (⟨6, 6, "Paragraphs are scannable"⟩, [])
  else if lens.sum ≤ 500 * d then
    (⟨4, 6, "Paragraphs are a bit long"⟩,
     [⟨"readability", 2, "👓 Shorten paragraphs for easier reading (+2 points)"⟩])
  else
    (⟨2, 6, "Paragraphs are too long"⟩,
     [⟨"readability", 4, "❌ Break up long paragraphs (under 300 chars each) (+4 points)"⟩])

/-- `getGradeFromScore` (identical copies in the content script and in the
    background worker). -/
def getGradeFromScore (score : Nat) : String :=
  if score ≥ 90 then "A"
  else if score ≥ 80 then "B"
  else if score ≥ 70 then "C"
  else if score ≥ 60 then "D"
  else "F"

/-- `calculateSimpleMobileScore(textContent, subject)`: per-factor points are
    computed in source order, summed (the sum of the maxima is exactly 100),
    suggestions are accumulated in push order, and the grade is derived from
    the final score.  The image factor is the source's placeholder: always
    full marks, never a suggestion. -/
def calculateSimpleMobileScore (textContent subject : Str) : MobileScore :=
  let sf := subjectFactor subject
  let cf := ctaFactor textContent
  let lf := linkFactor textContent
  let imageR : FactorResult := ⟨12, 12, "Images not analyzed in preview"⟩
  let tf := lengthFactor textContent
  let wf := whitespaceFactor textContent
  let rf := readabilityFactor textContent
  let score := sf.1.score + cf.1.score + lf.1.score + imageR.score
               + tf.1.score + wf.1.score + rf.1.score
  { score := score,
    breakdown := ⟨sf.1, cf.1, lf.1, imageR, tf.1, wf.1, rf.1⟩,
    suggestions := sf.2 ++ cf.2 ++ lf.2 ++ tf.2 ++ wf.2 ++ rf.2,
    grade := getGradeFromScore score }

/-!
The `throttle(func, wait)` combinator, as used for
`throttledServiceWorkerUpdate = throttle(sendEmailStateToServiceWorker, 500)`.
The closure keeps one boolean `inThrottle`; a call while it is set does
nothing at all (no pending arguments are kept), a call while it is clear
invokes `func` immediately and arms a timer that clears the flag after
`wait` ms.  We model an execution as a sequence of events — calls carrying
the update value, and timer firings — and record the values actually passed
to `func` in order.
-/

inductive ThrottleEvent (α : Type) where
  | call : α → ThrottleEvent α
  | timerFire : ThrottleEvent α
deriving DecidableEq

structure ThrottleState (α : Type) where
  inThrottle : Bool
  delivered : List α
deriving DecidableEq

def throttleStep {α : Type} (st : ThrottleState α) : ThrottleEvent α → ThrottleState α
  | ThrottleEvent.call u =>
      if st.inThrottle then st else ⟨true, st.delivered ++ [u]⟩
  | ThrottleEvent.timerFire => ⟨false, st.delivered⟩

def throttleRun {α : Type} (evts : List (ThrottleEvent α)) : ThrottleState α :=
  evts.foldl throttleStep ⟨false, []⟩

/-- The updates computed during a trace, in computation order. -/
def throttleCalls {α : Type} (evts : List (ThrottleEvent α)) : List α :=
  evts.filterMap (fun e =>
    match e with
    | ThrottleEvent.call u => some u
    | ThrottleEvent.timerFire => none)

/-!
The `LRUCache` class: a `Map` in insertion order, `get` re-inserts the found
entry at the end, `set` deletes an existing key, appends, and evicts the
first (oldest-accessed) entry when the size exceeds `maxSize`.  The
`operationCache` instances are each constructed with `new LRUCache(30)`.
-/

structure LRUCache (K V : Type) where
  maxSize : Nat
  cache : List (K × V)

def operationCacheCapacity : Nat := 30

def LRUCache.get {K V : Type} [DecidableEq K] (c : LRUCache K V) (k : K) :
    Option V × LRUCache K V :=
  match c.cache.find? (fun p => p.1 == k) with
  | none => (none, c)
  | some entry =>
      (some entry.2,
       { c with cache := c.cache.filter (fun p => !(p.1 == k)) ++ [(k, entry.2)] })

def LRUCache.set {K V : Type} [DecidableEq K] (c : LRUCache K V) (k : K) (v : V) :
    LRUCache K V :=
  let c1 := if c.cache.any (fun p => p.1 == k)
            then c.cache.filter (fun p => !(p.1 == k)) else c.cache
  let c2 := c1 ++ [(k, v)]
  { c with cache := if c.maxSize < c2.length then c2.drop 1 else c2 }

def LRUCache.clear {K V : Type} (c : LRUCache K V) : LRUCache K V :=
  { c with cache := [] }

def LRUCache.size {K V : Type} (c : LRUCache K V) : Nat := c.cache.length

inductive CacheOp (K V : Type) where
  | get : K → CacheOp K V
  | set : K → V → CacheOp K V
  | clear : CacheOp K V

def applyCacheOp {K V : Type} [DecidableEq K] (c : LRUCache K V) :
    CacheOp K V → LRUCache K V
  | CacheOp.get k => (c.get k).2
  | CacheOp.set k v => c.set k v
  | CacheOp.clear => c.clear

def runCacheOps {K V : Type} [DecidableEq K] (maxSize : Nat)
    (ops : List (CacheOp K V)) : LRUCache K V :=
  ops.foldl applyCacheOp ⟨maxSize, []⟩

/-!
`fastHash` and the hash bookkeeping of `updatePreview`.  `fastHash` is the
classic 31-multiplier string hash over signed 32-bit integers:
`hash = ((hash << 5) - hash) + charCode; hash = hash & hash`.
-/

/-- Wrap an integer to the signed 32-bit range, as JS `| 0` / `&` coercion. -/
def toInt32 (n : Int) : Int :=
  let m := n % 4294967296
  if m < 2147483648 then m else m - 4294967296

def fastHash (s : Str) : Int :=
  if s.length = 0 then 0
  else s.foldl (fun h c => toInt32 (toInt32 (h * 32) - h + (c.toNat : Int))) 0

/-- The two module-level variables owned by the heavy pass
    (`lastContentHash`, `lastSubjectHash`), both initialised to `null`. -/
structure HashState where
  lastContentHash : Option Int
  lastSubjectHash : Option Int
deriving DecidableEq

/-- The hash/skip logic of the `updatePreview(lightMode)` RAF callback, after
    the DOM content has been read: compares the fresh hashes with the stored
    ones, returns early on an unchanged heavy pass, and stores the fresh
    hashes only when `lightMode` is false.  The boolean result records
    whether the heavy operations (preflight checks, scorer, relay update)
    ran. -/
def updatePreviewCore (lightMode : Bool) (textContent subject : Str)
    (st : HashState) : HashState × Bool :=
  let contentHash := fastHash textContent
  let subjectHash := fastHash subject
  let hasContentChanged := !(some contentHash == st.lastContentHash)
  let hasSubjectChanged := !(some subjectHash == st.lastSubjectHash)
  if !lightMode && !hasContentChanged && !hasSubjectChanged then
    (st, false)
  else
    let st1 := if !lightMode
               then { lastContentHash := some contentHash,
                      lastSubjectHash := some subjectHash }
               else st
    (st1, !lightMode)

/-!
The Usage Gate of the background worker (`DAILY_LIMIT = 5`):
`checkUsageLimit` reads `isPaid` from `chrome.storage.sync` and `usageData`
from `chrome.storage.local`, treats a record whose `date` differs from
today's key as a zero counter, and never writes; the `EMAIL_SENT` handler
re-reads, rolls over, increments and persists; `trackPreviewUsage` derives a
read-only snapshot; the content-script `checkLimit` falls back to an allowed
result when messaging fails or yields no response.  `getToday` is real local
time, so the day key is a parameter here.
-/

structure UsageRecord where
  date : String
  count : Nat
deriving DecidableEq

structure UsageResult where
  allowed : Bool
  remaining : Int
  limit : Int
  isApproachingLimit : Bool
deriving DecidableEq

def DAILY_LIMIT : Int := 5

/-- The free-tier core of `checkUsageLimit`, after the `isPaid` bypass:
    default record, implicit rollover, remaining/allowed/approaching. -/
def freeUsageResult (ud : Option UsageRecord) (today : String) : UsageResult :=
  let data0 := ud.getD ⟨today, 0⟩
  let data := if data0.date ≠ today then (⟨today, 0⟩ : UsageRecord) else data0
  let remaining : Int := max 0 (DAILY_LIMIT - (data.count : Int))
  { allowed := decide ((data.count : Int) < DAILY_LIMIT),
    remaining := remaining,
    limit := DAILY_LIMIT,
    isApproachingLimit := decide (remaining ≤ 2 ∧ 0 < remaining) }

/-- Result of `checkUsageLimit` as a function of the two storage reads. -/
def usageResultOf (paid : Option Bool) (ud : Option UsageRecord)
    (today : String) : UsageResult :=
  if paid = some true then ⟨true, -1, -1, false⟩
  else freeUsageResult ud today

/-- The two storage areas the Usage Gate touches. -/
structure Storage where
  isPaid : Option Bool
  usageData : Option UsageRecord
deriving DecidableEq

def syncGetIsPaid (st : Storage) : Option Bool × Storage := (st.isPaid, st)

def localGetUsageData (st : Storage) : Option UsageRecord × Storage :=
  (st.usageData, st)

def localSetUsageData (d : UsageRecord) (st : Storage) : Storage :=
  { st with usageData := some d }

/-- `checkUsageLimit` with its storage effects threaded explicitly: the body
    performs two reads and no write. -/
def checkUsageLimitS (today : String) (st : Storage) : UsageResult × Storage :=
  let r1 := syncGetIsPaid st
  if r1.1 = some true then
    (⟨true, -1, -1, false⟩, r1.2)
  else
    let r2 := localGetUsageData r1.2
    (freeUsageResult r2.1 today, r2.2)

/-- `checkUsageLimit` with fallible storage reads: any thrown read lands in
    the `catch`, which returns the allowed fallback
    `{allowed: true, remaining: 5, limit: 5, isApproachingLimit: false}`. -/
def checkUsageLimitWorker (syncRead : Except String (Option Bool))
    (localRead : Except String (Option UsageRecord)) (today : String) :
    UsageResult :=
  match syncRead with
  | Except.error _ => ⟨true, DAILY_LIMIT, DAILY_LIMIT, false⟩
  | Except.ok paid =>
    if paid = some true then ⟨true, -1, -1, false⟩
    else
      match localRead with
      | Except.error _ => ⟨true, DAILY_LIMIT, DAILY_LIMIT, false⟩
      | Except.ok ud => freeUsageResult ud today

structure PreviewUsage where
  previews : Int
  limit : Int
deriving DecidableEq

/-- `trackPreviewUsage`: a read-only snapshot derived from
    `checkUsageLimit`. -/
def trackPreviewUsageS (today : String) (st : Storage) :
    PreviewUsage × Storage :=
  let r := checkUsageLimitS today st
  let previews : Int := if 0 ≤ r.1.limit then r.1.limit - r.1.remaining else 0
  let limit : Int := if 0 ≤ r.1.limit then r.1.limit else DAILY_LIMIT
  (⟨previews, limit⟩, r.2)

/-- The storage effect of the `EMAIL_SENT` handler: paid users skip
    tracking; otherwise the record is rolled over to today if stale,
    incremented, and persisted. -/
def emailSentUpdate (today : String) (st : Storage) : Storage :=
  let r1 := syncGetIsPaid st
  if r1.1 = some true then r1.2
  else
    let r2 := localGetUsageData r1.2
    let data0 := r2.1.getD ⟨today, 0⟩
    let data := if data0.date ≠ today then (⟨today, 0⟩ : UsageRecord) else data0
    localSetUsageData ⟨data.date, data.count + 1⟩ r2.2

/-- The content-script `checkLimit`: a thrown `sendMessage` or a missing
    response falls back to an allowed result. -/
def checkLimit (response : Except String (Option UsageResult)) : UsageResult :=
  match response with
  | Except.error _ => ⟨true, 50, 50, false⟩
  | Except.ok none => ⟨true, 50, 50, false⟩
  | Except.ok (some r) => r

/-! ### Helper lemmas -/

theorem throttle_foldl_delivered {α : Type} (evts : List (ThrottleEvent α))
    (st : ThrottleState α) :
    ∃ l, (evts.foldl throttleStep st).delivered = st.delivered ++ l
      ∧ List.Sublist l (throttleCalls evts) := by
  induction evts generalizing st with
  | nil => exact ⟨[], by simp, by simp [throttleCalls]⟩
  | cons e rest ih =>
    cases e with
    | call u =>
      by_cases h : st.inThrottle = true
      · obtain ⟨l, hl, hsub⟩ := ih st
        refine ⟨l, ?_, ?_⟩
        · simpa [throttleStep, h] using hl
        · simp only [throttleCalls, List.filterMap_cons]
          exact List.Sublist.cons u hsub
      · obtain ⟨l, hl, hsub⟩ := ih ⟨true, st.delivered ++ [u]⟩
        refine ⟨u :: l, ?_, ?_⟩
        · simp only [List.foldl_cons, throttleStep, h, if_false]
          simpa using hl
        · simp only [throttleCalls, List.filterMap_cons]
          exact List.Sublist.cons₂ u hsub
    | timerFire =>
      obtain ⟨l, hl, hsub⟩ := ih ⟨false, st.delivered⟩
      refine ⟨l, ?_, ?_⟩
      · simpa [throttleStep] using hl
      · simpa [throttleCalls, List.filterMap_cons] using hsub

/-! ### Claim theorems -/

/-- Claim C1: the Heuristic Scorer is deterministic — byte-equal body text and
    subject inputs yield identical `MobileScore` outputs (score, breakdown,
    suggestions and grade alike). -/
theorem claim_scorer_deterministic (t1 t2 s1 s2 : Str)
    (ht : t1 = t2) (hs : s1 = s2) :
    calculateSimpleMobileScore t1 s1 = calculateSimpleMobileScore t2 s2 := by
  subst ht; subst hs; rfl

theorem claim_scorer_deterministic_witness :
    "Quick note".toList = "Quick note".toList
    ∧ calculateSimpleMobileScore "Quick note".toList "Hello".toList
        = calculateSimpleMobileScore "Quick note".toList "Hello".toList :=
  ⟨rfl, claim_scorer_deterministic "Quick note".toList "Quick note".toList
      "Hello".toList "Hello".toList rfl rfl⟩

/-- Claim C2, counterexample to the claim as stated: in the trace where an
    update `0` is computed, update `1` is computed while the 500ms window is
    still active, and the window then expires, update `1` is dropped by
    `throttle` — it is never delivered, not enqueued as a pending update. -/
theorem claim_throttle_drops_counterexample :
    (throttleRun [ThrottleEvent.call 0, ThrottleEvent.call 1,
        ThrottleEvent.timerFire]).delivered = [0]
    ∧ ((throttleRun [ThrottleEvent.call 0, ThrottleEvent.call 1,
        ThrottleEvent.timerFire]).delivered.contains 1) = false := by
  decide

/-- Claim C2 (amended): the delivered updates are a subsequence of the
    computed updates, in computation order — the throttle never reorders and
    never duplicates — but an update computed while the 500ms window is
    active is dropped outright (the source `throttle` keeps no pending
    arguments); an update computed while no window is active is delivered
    immediately. -/
theorem claim_throttle_order_amended {α : Type}
    (evts : List (ThrottleEvent α)) (u : α) :
    List.Sublist (throttleRun evts).delivered (throttleCalls evts)
    ∧ ((throttleRun evts).inThrottle = false →
        (throttleStep (throttleRun evts) (ThrottleEvent.call u)).delivered
          = (throttleRun evts).delivered ++ [u]) := by
  constructor
  · obtain ⟨l, hl, hsub⟩ := throttle_foldl_delivered evts ⟨false, []⟩
    simpa [throttleRun, hl] using hsub
  · intro hidle
    simp [throttleStep, hidle]

theorem claim_throttle_order_amended_witness :
    (throttleRun [ThrottleEvent.call 7, ThrottleEvent.timerFire]).inThrottle = false
    ∧ (throttleStep (throttleRun [ThrottleEvent.call 7, ThrottleEvent.timerFire])
        (ThrottleEvent.call 9)).delivered
      = (throttleRun [ThrottleEvent.call 7, ThrottleEvent.timerFire]).delivered ++ [9] :=
  ⟨by decide,
   (claim_throttle_order_amended [ThrottleEvent.call 7, ThrottleEvent.timerFire] 9).2
     (by decide)⟩

/-- Claim C7: the unlock flag is authoritative — whenever `isPaid` is stored
    as `true`, `checkUsageLimit` reports the unlimited allowed result, for
    every stored usage record and counter value. -/
theorem claim_paid_bypass (today : String) (st : Storage)
    (h : st.isPaid = some true) :
    (checkUsageLimitS today st).1 = ⟨true, -1, -1, false⟩ := by
  simp [checkUsageLimitS, syncGetIsPaid, h]

theorem claim_paid_bypass_witness :
    (⟨some true, some ⟨"2026-10-12", 99⟩⟩ : Storage).isPaid = some true
    ∧ (checkUsageLimitS "2026-10-12"
        ⟨some true, some ⟨"2026-10-12", 99⟩⟩).1 = ⟨true, -1, -1, false⟩ :=
  ⟨rfl, claim_paid_bypass "2026-10-12" ⟨some true, some ⟨"2026-10-12", 99⟩⟩ rfl⟩

/-- Claim C9: usage checks fail open — a thrown `sendMessage`, a missing
    response, a thrown `chrome.storage.sync` read, and a thrown
    `chrome.storage.local` read all yield a result with `allowed = true`
    instead of blocking or propagating the error. -/
theorem claim_usage_fail_open (e1 e2 : String) (paid : Option Bool)
    (localRead : Except String (Option UsageRecord)) (today : String) :
    (checkLimit (Except.error e1)).allowed = true
    ∧ (checkLimit (Except.ok none)).allowed = true
    ∧ (checkUsageLimitWorker (Except.error e1) localRead today).allowed = true
    ∧ (checkUsageLimitWorker (Except.ok paid) (Except.error e2) today).allowed = true := by
  refine ⟨rfl, rfl, rfl, ?_⟩
  by_cases h : paid = some true <;> simp [checkUsageLimitWorker, h]

/-- Claim C10: checking the usage limit never writes state — both
    `checkUsageLimit` and the derived `trackPreviewUsage` leave the storage
    areas exactly as they found them, for every stored record, flag and day
    key; a rollover observed during a check is computed in memory only. -/
theorem claim_usage_check_no_write (today : String) (st : Storage) :
    (checkUsageLimitS today st).2 = st ∧ (trackPreviewUsageS today st).2 = st := by
  constructor <;>
    · simp only [checkUsageLimitS, trackPreviewUsageS, syncGetIsPaid, localGetUsageData]
      split <;> rfl

/-- Claim C4: the light pass never overwrites the hashes recorded at the
    previous heavy pass — `updatePreview(true)` leaves `lastContentHash` and
    `lastSubjectHash` unchanged; a heavy pass that observes no change exits
    early without heavy work; a heavy pass that observes a changed content or
    subject hash performs the heavy work and records the fresh hashes; hence
    a heavy pass on changed content that follows any light pass never skips
    its recomputation. -/
theorem claim_light_pass_preserves_hashes (t s t2 s2 : Str) (st : HashState) :
    (updatePreviewCore true t s st).1 = st
    ∧ (st.lastContentHash = some (fastHash t) →
        st.lastSubjectHash = some (fastHash s) →
        updatePreviewCore false t s st = (st, false))
    ∧ (st.lastContentHash ≠ some (fastHash t) →
        updatePreviewCore false t s st
          = (⟨some (fastHash t), some (fastHash s)⟩, true))
    ∧ (st.lastSubjectHash ≠ some (fastHash s) →
        updatePreviewCore false t s st
          = (⟨some (fastHash t), some (fastHash s)⟩, true))
    ∧ (st.lastContentHash ≠ some (fastHash t2) →
        (updatePreviewCore false t2 s2 ((updatePreviewCore true t s st).1)).2
          = true) := by
  refine ⟨?_, ?_, ?_, ?_, ?_⟩
  · simp [updatePreviewCore]
  · intro h1 h2
    simp [updatePreviewCore, h1, h2]
  · intro h
    have hb : (some (fastHash t) == st.lastContentHash) = false := by
      rw [beq_eq_false_iff_ne]
      exact Ne.symm h
    simp [updatePreviewCore, hb]
  · intro h
    have hb : (some (fastHash s) == st.lastSubjectHash) = false := by
      rw [beq_eq_false_iff_ne]
      exact Ne.symm h
    simp [updatePreviewCore, hb]
  · intro h
    have hlight : (updatePreviewCore true t s st).1 = st := by
      simp [updatePreviewCore]
    rw [hlight]
    have hb : (some (fastHash t2) == st.lastContentHash) = false := by
      rw [beq_eq_false_iff_ne]
      exact Ne.symm h
    simp [updatePreviewCore, hb]

theorem claim_light_pass_preserves_hashes_witness :
    (⟨none, none⟩ : HashState).lastContentHash ≠ some (fastHash "a".toList)
    ∧ updatePreviewCore false "a".toList "b".toList ⟨none, none⟩
        = (⟨some (fastHash "a".toList), some (fastHash "b".toList)⟩, true) :=
  ⟨by decide,
   (claim_light_pass_preserves_hashes "a".toList "b".toList
      "a".toList "b".toList ⟨none, none⟩).2.2.1 (by decide)⟩

/-- One recorded send for a free-tier user whose stored record already
    carries today's key. -/
theorem emailSentUpdate_today (today : String) (p : Option Bool) (n : Nat)
    (hp : p ≠ some true) :
    emailSentUpdate today ⟨p, some ⟨today, n⟩⟩ = ⟨p, some ⟨today, n + 1⟩⟩ := by
  simp [emailSentUpdate, syncGetIsPaid, localGetUsageData, localSetUsageData, hp]

/-- Claim C6: the Usage Gate resets implicitly on period rollover — a stored
    record carrying a different day key is treated as a zero counter, so the
    check reports the full limit of 5 remaining — and blocks at the limit:
    starting from a fresh store, five recorded sends on the same day make the
    check report `allowed = false` with `remaining = 0`. -/
theorem claim_usage_rollover_and_block (today : String) (st : Storage)
    (d : UsageRecord) (hpaid : st.isPaid ≠ some true) :
    (st.usageData = some d → d.date ≠ today →
      (checkUsageLimitS today st).1 = ⟨true, 5, 5, false⟩)
    ∧ (st.usageData = none →
      (checkUsageLimitS today
        (emailSentUpdate today (emailSentUpdate today (emailSentUpdate today
          (emailSentUpdate today (emailSentUpdate today st)))))).1
        = ⟨false, 0, 5, false⟩) := by
  constructor
  · intro hud hdate
    simp [checkUsageLimitS, syncGetIsPaid, localGetUsageData, freeUsageResult,
      hpaid, hud, hdate, DAILY_LIMIT]
  · intro hnone
    have e1 : emailSentUpdate today st = ⟨st.isPaid, some ⟨today, 1⟩⟩ := by
      simp [emailSentUpdate, syncGetIsPaid, localGetUsageData,
        localSetUsageData, hpaid, hnone]
    rw [e1, emailSentUpdate_today today st.isPaid 1 hpaid,
      emailSentUpdate_today today st.isPaid 2 hpaid,
      emailSentUpdate_today today st.isPaid 3 hpaid,
      emailSentUpdate_today today st.isPaid 4 hpaid]
    simp [checkUsageLimitS, syncGetIsPaid, localGetUsageData, freeUsageResult,
      hpaid, DAILY_LIMIT]

theorem claim_usage_rollover_and_block_witness :
    (⟨some false, some ⟨"2026-10-11", 3⟩⟩ : Storage).isPaid ≠ some true
    ∧ (checkUsageLimitS "2026-10-12"
        ⟨some false, some ⟨"2026-10-11", 3⟩⟩).1 = ⟨true, 5, 5, false⟩ :=
  ⟨by decide,
   (claim_usage_rollover_and_block "2026-10-12"
      ⟨some false, some ⟨"2026-10-11", 3⟩⟩ ⟨"2026-10-11", 3⟩
      (by decide)).1 rfl (by decide)⟩

theorem length_filter_lt_of_mem {α : Type} (p : α → Bool) (l : List α) (x : α)
    (hx : x ∈ l) (hpx : p x = false) : (l.filter p).length < l.length := by
  induction l with
  | nil => cases hx
  | cons a as ih =>
    rcases List.mem_cons.mp hx with rfl | hx'
    · have hle := List.length_filter_le p as
      simp [List.filter_cons, hpx]
      omega
    · by_cases hpa : p a = true <;>
        · have := ih hx'
          simp [List.filter_cons, hpa]
          omega

theorem find?_append_of_forall_false {α : Type} (p : α → Bool) (l1 l2 : List α)
    (h : ∀ x ∈ l1, p x = false) : (l1 ++ l2).find? p = l2.find? p := by
  induction l1 with
  | nil => rfl
  | cons a as ih =>
    have ha : p a = false := h a (List.mem_cons_self a as)
    simp only [List.cons_append, List.find?_cons, ha]
    exact ih (fun x hx => h x (List.mem_cons_of_mem a hx))

theorem lru_get_size_le {K V : Type} [DecidableEq K] (c : LRUCache K V) (k : K)
    (h : c.cache.length ≤ c.maxSize) :
    ((c.get k).2).cache.length ≤ ((c.get k).2).maxSize := by
  cases hf : c.cache.find? (fun p => p.1 == k) with
  | none => simpa [LRUCache.get, hf] using h
  | some e =>
    have he : e ∈ c.cache := List.mem_of_find?_eq_some hf
    have hpe : (e.1 == k) = true := by
      have := List.find?_some hf
      simpa using this
    have hlt := length_filter_lt_of_mem (fun p => !(p.1 == k)) c.cache e he
      (by simp [hpe])
    simp only [LRUCache.get, hf, List.length_append, List.length_cons,
      List.length_nil]
    omega

theorem lru_set_size_le {K V : Type} [DecidableEq K] (c : LRUCache K V)
    (k : K) (v : V) (h : c.cache.length ≤ c.maxSize) :
    (c.set k v).cache.length ≤ (c.set k v).maxSize := by
  have hfl : (c.cache.filter (fun p => !(p.1 == k))).length ≤ c.cache.length :=
    List.length_filter_le _ _
  simp only [LRUCache.set]
  split <;> split <;>
    · simp only [List.length_drop, List.length_append, List.length_cons,
        List.length_nil] at *
      omega

theorem lru_op_size_le {K V : Type} [DecidableEq K] (c : LRUCache K V)
    (op : CacheOp K V) (h : c.cache.length ≤ c.maxSize) :
    (applyCacheOp c op).cache.length ≤ (applyCacheOp c op).maxSize := by
  cases op with
  | get k => exact lru_get_size_le c k h
  | set k v => exact lru_set_size_le c k v h
  | clear => simp [applyCacheOp, LRUCache.clear]

theorem lru_run_size_le {K V : Type} [DecidableEq K]
    (ops : List (CacheOp K V)) (c : LRUCache K V)
    (h : c.cache.length ≤ c.maxSize) :
    (ops.foldl applyCacheOp c).cache.length
      ≤ (ops.foldl applyCacheOp c).maxSize := by
  induction ops generalizing c with
  | nil => simpa
  | cons op rest ih => exact ih _ (lru_op_size_le c op h)

theorem lru_run_maxSize {K V : Type} [DecidableEq K]
    (ops : List (CacheOp K V)) (c : LRUCache K V) :
    (ops.foldl applyCacheOp c).maxSize = c.maxSize := by
  induction ops generalizing c with
  | nil => rfl
  | cons op rest ih =>
    rw [List.foldl_cons, ih]
    cases op with
    | get k =>
      cases hf : c.cache.find? (fun p => p.1 == k) <;>
        simp [applyCacheOp, LRUCache.get, hf]
    | set k v => rfl
    | clear => rfl

theorem lru_c1_no_key {K V : Type} [DecidableEq K] (c : LRUCache K V) (k : K) :
    ∀ x ∈ (if c.cache.any (fun p => p.1 == k)
           then c.cache.filter (fun p => !(p.1 == k)) else c.cache),
      (x.1 == k) = false := by
  split
  · intro x hx
    have hmem := List.mem_filter.mp hx
    simpa using hmem.2
  · next hany =>
    intro x hx
    have hfalse : c.cache.any (fun p => p.1 == k) = false :=
      Bool.not_eq_true _ ▸ eq_false_of_ne_true hany
    have := List.any_eq_false.mp hfalse x hx
    simpa using this

theorem lru_set_find {K V : Type} [DecidableEq K] (c : LRUCache K V)
    (k : K) (v : V) (hcap : 0 < c.maxSize) :
    (c.set k v).cache.find? (fun p => p.1 == k) = some (k, v) := by
  have hc1 := lru_c1_no_key c k
  simp only [LRUCache.set]
  generalize hg : (if c.cache.any (fun p => p.1 == k)
      then c.cache.filter (fun p => !(p.1 == k)) else c.cache) = c1 at hc1 ⊢
  split
  · next hlt =>
    have h1le : 1 ≤ c1.length := by
      simp only [List.length_append, List.length_cons, List.length_nil] at hlt
      omega
    rw [List.drop_append_of_le_length h1le,
      find?_append_of_forall_false _ _ _
        (fun x hx => hc1 x (List.mem_of_mem_drop hx))]
    simp
  · rw [find?_append_of_forall_false _ _ _ hc1]
    simp

/-- Claim C5: the LRU result cache keeps its size at or below the capacity
    (30 per `operationCache` instance) under every sequence of get/set/clear
    operations; inserting a new key into a full cache evicts exactly the
    least-recently-accessed (front) entry; and a `get` immediately after a
    `set` of the same key is a hit returning the stored value. -/
theorem claim_lru_invariants {K V : Type} [DecidableEq K]
    (ops : List (CacheOp K V)) (c : LRUCache K V) (k : K) (v : V) :
    (runCacheOps operationCacheCapacity ops).cache.length
      ≤ operationCacheCapacity
    ∧ (c.cache.length = c.maxSize → 0 < c.maxSize →
        c.cache.any (fun p => p.1 == k) = false →
        (c.set k v).cache = c.cache.tail ++ [(k, v)])
    ∧ (0 < c.maxSize → ((c.set k v).get k).1 = some v) := by
  refine ⟨?_, ?_, ?_⟩
  · unfold runCacheOps
    have h := lru_run_size_le ops
      (⟨operationCacheCapacity, []⟩ : LRUCache K V) (by simp)
    rwa [lru_run_maxSize] at h
  · intro h1 h2 h3
    have hlen : 1 ≤ c.cache.length := by omega
    simp only [LRUCache.set, h3, Bool.false_eq_true, if_false]
    rw [if_pos (by simp only [List.length_append, List.length_cons,
      List.length_nil]; omega)]
    rw [List.drop_append_of_le_length hlen, List.drop_one]
  · intro hcap
    have hfind := lru_set_find c k v hcap
    simp [LRUCache.get, hfind]

theorem claim_lru_invariants_witness :
    (⟨2, [(1, 10), (2, 20)]⟩ : LRUCache Nat Nat).cache.length
      = (⟨2, [(1, 10), (2, 20)]⟩ : LRUCache Nat Nat).maxSize
    ∧ (LRUCache.set (⟨2, [(1, 10), (2, 20)]⟩ : LRUCache Nat Nat) 3 30).cache
      = (⟨2, [(1, 10), (2, 20)]⟩ : LRUCache Nat Nat).cache.tail ++ [(3, 30)]
    ∧ ((LRUCache.set (⟨2, [(1, 10), (2, 20)]⟩ : LRUCache Nat Nat) 3 30).get 3).1
      = some 30 :=
  ⟨rfl,
   (claim_lru_invariants ([] : List (CacheOp Nat Nat))
      ⟨2, [(1, 10), (2, 20)]⟩ 3 30).2.1 rfl (by decide) (by decide),
   (claim_lru_invariants ([] : List (CacheOp Nat Nat))
      ⟨2, [(1, 10), (2, 20)]⟩ 3 30).2.2 (by decide)⟩

theorem subjectFactor_suggestion (s : Str) :
    (subjectFactor s).1.score < (subjectFactor s).1.maxScore →
    ((subjectFactor s).2.any (fun x => x.factor == "subjectLength")) = true := by
  simp only [subjectFactor]
  split_ifs <;> simp

theorem ctaFactor_suggestion (t : Str) :
    (ctaFactor t).1.score < (ctaFactor t).1.maxScore →
    ((ctaFactor t).2.any (fun x => x.factor == "ctaAboveFold")) = true := by
  simp only [ctaFactor]
  split_ifs <;> simp

theorem linkFactor_suggestion (t : Str) :
    (linkFactor t).1.score < (linkFactor t).1.maxScore →
    countLinks t ≠ 0 →
    ((linkFactor t).2.any (fun x => x.factor == "linkDensity")) = true := by
  simp only [linkFactor]
  split_ifs <;> simp_all

theorem lengthFactor_suggestion (t : Str) :
    (lengthFactor t).1.score < (lengthFactor t).1.maxScore →
    ((lengthFactor t).2.any (fun x => x.factor == "textLength")) = true := by
  simp only [lengthFactor]
  split_ifs <;> simp

theorem whitespaceFactor_suggestion (t : Str) :
    (whitespaceFactor t).1.score < (whitespaceFactor t).1.maxScore →
    ((whitespaceFactor t).2.any (fun x => x.factor == "whitespaceRatio")) = true := by
  simp only [whitespaceFactor]
  split_ifs <;> simp

theorem readabilityFactor_suggestion (t : Str) :
    (readabilityFactor t).1.score < (readabilityFactor t).1.maxScore →
    ((readabilityFactor t).2.any (fun x => x.factor == "readability")) = true := by
  simp only [readabilityFactor]
  split_ifs <;> simp

/-- Claim C3, counterexample to the claim as stated: on a body with zero
    links, the link-density factor scores 8 of its 15 points — strictly below
    its maximum — yet the suggestions list contains no suggestion for the
    link-density factor (the zero-link branch of the source pushes
    nothing). -/
theorem claim_suggestions_missing_link_counterexample :
    ((calculateSimpleMobileScore "Hi.".toList "Yo".toList).breakdown.linkDensity.score
      < (calculateSimpleMobileScore "Hi.".toList "Yo".toList).breakdown.linkDensity.maxScore)
    ∧ ((calculateSimpleMobileScore "Hi.".toList "Yo".toList).suggestions.any
        (fun x => x.factor == "linkDensity")) = false := by
  decide

/-- Claim C3 (amended): for every input, every factor of the breakdown that
    scores strictly below its maximum has an improvement suggestion for that
    factor (carrying its point-gain annotation) in the suggestions list —
    except the link-density factor when the body contains zero links, whose
    branch scores 8 of 15 points and pushes no suggestion (the image factor
    is never below its maximum). -/
theorem claim_suggestions_below_max_amended (t s : Str) :
    (((calculateSimpleMobileScore t s).breakdown.subjectLength.score
        < (calculateSimpleMobileScore t s).breakdown.subjectLength.maxScore) →
      ((calculateSimpleMobileScore t s).suggestions.any
        (fun x => x.factor == "subjectLength")) = true)
    ∧ (((calculateSimpleMobileScore t s).breakdown.ctaAboveFold.score
        < (calculateSimpleMobileScore t s).breakdown.ctaAboveFold.maxScore) →
      ((calculateSimpleMobileScore t s).suggestions.any
        (fun x => x.factor == "ctaAboveFold")) = true)
    ∧ (((calculateSimpleMobileScore t s).breakdown.linkDensity.score
        < (calculateSimpleMobileScore t s).breakdown.linkDensity.maxScore) →
      countLinks t ≠ 0 →
      ((calculateSimpleMobileScore t s).suggestions.any
        (fun x => x.factor == "linkDensity")) = true)
    ∧ (((calculateSimpleMobileScore t s).breakdown.imageOptimization.score
        < (calculateSimpleMobileScore t s).breakdown.imageOptimization.maxScore) →
      False)
    ∧ (((calculateSimpleMobileScore t s).breakdown.textLength.score
        < (calculateSimpleMobileScore t s).breakdown.textLength.maxScore) →
      ((calculateSimpleMobileScore t s).suggestions.any
        (fun x => x.factor == "textLength")) = true)
    ∧ (((calculateSimpleMobileScore t s).breakdown.whitespaceRatio.score
        < (calculateSimpleMobileScore t s).breakdown.whitespaceRatio.maxScore) →
      ((calculateSimpleMobileScore t s).suggestions.any
        (fun x => x.factor == "whitespaceRatio")) = true)
    ∧ (((calculateSimpleMobileScore t s).breakdown.readability.score
        < (calculateSimpleMobileScore t s).breakdown.readability.maxScore) →
      ((calculateSimpleMobileScore t s).suggestions.any
        (fun x => x.factor == "readability")) = true) := by
  refine ⟨?_, ?_, ?_, ?_, ?_, ?_, ?_⟩ <;>
    simp only [calculateSimpleMobileScore, List.any_append, Bool.or_eq_true]
  · intro h
    have hx := subjectFactor_suggestion s h
    tauto
  · intro h
    have hx := ctaFactor_suggestion t h
    tauto
  · intro h h0
    have hx := linkFactor_suggestion t h h0
    tauto
  · intro h
    simp at h
  · intro h
    have hx := lengthFactor_suggestion t h
    tauto
  · intro h
    have hx := whitespaceFactor_suggestion t h
    tauto
  · intro h
    have hx := readabilityFactor_suggestion t h
    tauto

theorem claim_suggestions_below_max_amended_witness :
    ((calculateSimpleMobileScore "Hi.".toList [] ).breakdown.subjectLength.score
      < (calculateSimpleMobileScore "Hi.".toList []).breakdown.subjectLength.maxScore)
    ∧ ((calculateSimpleMobileScore "Hi.".toList []).suggestions.any
        (fun x => x.factor == "subjectLength")) = true :=
  ⟨by decide,
   (claim_suggestions_below_max_amended "Hi.".toList []).1 (by decide)⟩

theorem subjectFactor_score_le (s : Str) : (subjectFactor s).1.score ≤ 20 := by
  simp only [subjectFactor]
  split_ifs <;> simp

theorem ctaFactor_score_le (t : Str) : (ctaFactor t).1.score ≤ 25 := by
  simp only [ctaFactor]
  split_ifs <;> simp

theorem linkFactor_score_le (t : Str) : (linkFactor t).1.score ≤ 15 := by
  simp only [linkFactor]
  split_ifs <;> simp

theorem lengthFactor_score_le (t : Str) : (lengthFactor t).1.score ≤ 12 := by
  simp only [lengthFactor]
  split_ifs <;> simp

theorem whitespaceFactor_score_le (t : Str) : (whitespaceFactor t).1.score ≤ 10 := by
  simp only [whitespaceFactor]
  split_ifs <;> simp

theorem readabilityFactor_score_le (t : Str) : (readabilityFactor t).1.score ≤ 6 := by
  simp only [readabilityFactor]
  split_ifs <;> simp

/-- Claim C8: for every body text and subject, the score is an integer (a
    natural number here, hence at least 0) of at most 100 — the factor
    contributions sum to at most 20+25+15+12+12+10+6 = 100 — and the grade is
    derived from the score by the fixed thresholds ≥90 A, ≥80 B, ≥70 C,
    ≥60 D, else F. -/
theorem claim_score_bounds_grade (t s : Str) :
    (calculateSimpleMobileScore t s).score ≤ 100
    ∧ (calculateSimpleMobileScore t s).grade =
        (if (calculateSimpleMobileScore t s).score ≥ 90 then "A"
         else if (calculateSimpleMobileScore t s).score ≥ 80 then "B"
         else if (calculateSimpleMobileScore t s).score ≥ 70 then "C"
         else if (calculateSimpleMobileScore t s).score ≥ 60 then "D"
         else "F") := by
  constructor
  · have h1 := subjectFactor_score_le s
    have h2 := ctaFactor_score_le t
    have h3 := linkFactor_score_le t
    have h4 := lengthFactor_score_le t
    have h5 := whitespaceFactor_score_le t
    have h6 := readabilityFactor_score_le t
    simp only [calculateSimpleMobileScore]
    omega
  · rfl
